import Mathlib

/-!
Verification of the gs_fastcopy module (src/gs_fastcopy/__init__.py).

The module provides two context managers, `read` and `write`, that stream a
file from/to Google Cloud Storage (or the local filesystem) through a staged
buffer file in a temporary scratch directory, invoking external gzip tools
(`pigz`/`unpigz` with `gzip`/`gunzip` fallback) when the locator name ends in
`.gz`, and the external transfer tooling (`gcloud storage cp` for downloads,
`transfer_manager.upload_chunks_concurrently` for uploads) for remote URIs.

The embedding below models:
  * the local filesystem as an association list of paths to entries (regular
    files with byte contents, or symbolic links);
  * the remote object store as an association list of URIs to byte contents;
  * the external collaborators through an `Env` record: which parallel tools
    are on the search path, the working directory, the platform CPU queries,
    and the outcome (success, or failure with captured stderr) of each
    external invocation;
  * the gzip pair as an abstract compress/decompress pair `Gz` with the
    inverse law, instantiated concretely for evaluation;
  * each operation as a function returning the result (success value or the
    raised exception), the final world, and a trace of the externally visible
    events in the order they happen.
-/

namespace GsFastcopy

/-- Byte strings, modelled as lists of naturals. -/
abbrev Bytes := List Nat

/-- Python's `str.startswith`, computed on the character list. -/
def strStarts (s pre : String) : Bool :=
  pre.data.isPrefixOf s.data

/-- Python's `str.endswith`, computed on the character list. -/
def strEnds (s suf : String) : Bool :=
  suf.data.reverse.isPrefixOf s.data.reverse

/-- Python's slicing `s[:-n]`, computed on the character list. -/
def strDropRight (s : String) (n : Nat) : String :=
  String.mk (s.data.take (s.data.length - n))

/-- Python's slicing `s[n:]`, computed on the character list. -/
def strDrop (s : String) (n : Nat) : String :=
  String.mk (s.data.drop n)

/-- A filesystem entry: a regular file with contents, or a symbolic link
(created by `os.symlink` in `read`'s local-source branch). -/
inductive Entry where
  | file (content : Bytes)
  | link (target : String)
deriving DecidableEq, Repr

/-- The local filesystem: an association list of absolute-or-relative path
strings to entries. -/
abbrev FS := List (String × Entry)

/-- Look a path up in the filesystem. -/
def lookupFS : FS → String → Option Entry
  | [], _ => none
  | (q, e) :: rest, p => if q = p then some e else lookupFS rest p

/-- Remove a path from the filesystem. -/
def eraseFS (fs : FS) (p : String) : FS :=
  fs.filter (fun pe => pe.1 != p)

/-- Create or overwrite a path in the filesystem. -/
def insertFS (fs : FS) (p : String) (e : Entry) : FS :=
  (p, e) :: eraseFS fs p

/-- The scratch directory created by `tempfile.TemporaryDirectory()`; `mkdtemp`
guarantees a fresh name, modelled here as a fixed reserved path. -/
def tmpDir : String := "/tmp/gsfastcopy0"

/-- Recursive removal of the scratch directory on context-manager exit:
every path under `tmpDir` disappears. -/
def cleanupFS (fs : FS) : FS :=
  fs.filter (fun pe => ! strStarts pe.1 tmpDir)

/-- True when the filesystem holds nothing under the scratch directory. -/
def fsClean (fs : FS) : Bool :=
  fs.all (fun pe => ! strStarts pe.1 tmpDir)

/-- Read a file's bytes, resolving one level of symbolic link (the only depth
the module ever creates). -/
def readFileFS (fs : FS) (p : String) : Option Bytes :=
  match lookupFS fs p with
  | some (Entry.file c) => some c
  | some (Entry.link t) =>
    match lookupFS fs t with
    | some (Entry.file c) => some c
    | _ => none
  | none => none

/-- The remote object store: URIs to stored byte contents. -/
abbrev Remote := List (String × Bytes)

/-- Look a URI up in the remote store. -/
def lookupRemote : Remote → String → Option Bytes
  | [], _ => none
  | (q, c) :: rest, p => if q = p then some c else lookupRemote rest p

/-- Create or overwrite a remote object. -/
def insertRemote (r : Remote) (p : String) (c : Bytes) : Remote :=
  (p, c) :: r.filter (fun pc => pc.1 != p)

/-- The whole mutable state an operation acts on. -/
structure World where
  fs : FS
  remote : Remote
deriving DecidableEq, Repr

/-- The gzip pair realised by the external tools: compression is injective
with decompression as its left inverse; decompression rejects non-gzip input
(the tools exit non-zero on invalid data). -/
structure Gz where
  comp : Bytes → Bytes
  decomp : Bytes → Option Bytes
  round : ∀ b, decomp (comp b) = some b

/-- A concrete instance of the gzip pair, for evaluation at witnesses. -/
def gzC : Gz where
  comp := fun b => 0 :: b
  decomp := fun b => match b with
    | 0 :: t => some t
    | _ => none
  round := fun _ => rfl

/-- The external collaborators' behaviour for one run: tool availability on
the search path (`shutil.which`), the working directory, the platform CPU
queries behind `_get_available_cpus`, and the outcome of each external call
(`none` = exit 0, `some e` = non-zero exit with stderr `e`; `uploadRaises`
models an exception out of `transfer_manager`). -/
structure Env where
  unpigzOnPath : Bool
  pigzOnPath : Bool
  cwd : String
  schedAffinityOk : Bool
  affinityCpus : Nat
  cpuCount : Nat
  downloadFails : Option String
  unzipFails : Option String
  zipFails : Option String
  uploadRaises : Option String
deriving DecidableEq, Repr

/-- `_get_available_cpus`: `len(os.sched_getaffinity(0))` when the platform
supports it, else `os.cpu_count()` (the `AttributeError` fallback). -/
def getAvailableCpus (env : Env) : Nat :=
  if env.schedAffinityOk then env.affinityCpus else env.cpuCount

/-- Externally visible events of one operation, in order. -/
inductive Event where
  | mkTempDir (dir : String)
  | rmTempDir (dir : String)
  | downloadCmd (cmd : List String)
  | symlink (target : String) (linkName : String)
  | toolCmd (cmd : List String)
  | openRead (path : String)
  | openWrite (path : String)
  | yieldStream
  | closeStream
  | uploadCall (path : String) (uri : String) (maxWorkers : Nat)
      (chunkSize : Option Nat) (billing : Option String)
  | moveFile (src : String) (dst : String)
deriving DecidableEq, Repr

/-- The outcome of an operation: the caller's own exception propagated out,
a `raise Exception(msg)` from the module, or an exception out of the storage
SDK's URI resolution (`storage.Blob.from_string`). -/
inductive Err where
  | fromCaller (msg : String)
  | failure (msg : String)
  | resolveError (uri : String)
deriving DecidableEq, Repr

/-- Result of one operation: outcome, final world, event trace. -/
structure RunResult (α : Type) where
  result : Except Err α
  world : World
  trace : List Event
deriving Repr

/-- The `gcloud storage cp` argument list built by `_download_gs_uri`. -/
def gcloudCmd (gs_uri buffer : String) (billing : Option String) : List String :=
  ["gcloud", "storage", "cp"]
    ++ (match billing with
        | some b => ["--billing-project", b]
        | none => [])
    ++ [gs_uri, buffer]

/-- `os.path.abspath`, without `..`-normalisation (the module only feeds it
plain relative or absolute paths). -/
def abspath (cwd p : String) : String :=
  if strStarts p "/" then p else cwd ++ "/" ++ p

/-- Modelled from the external collaborator `storage.Blob.from_string` (the
google-cloud-storage SDK, outside this repository): a `gs://` URI resolves to
a bucket and an object name split at the first slash; an empty bucket or
empty object name cannot be resolved. -/
def parseGsUri (uri : String) : Option (String × String) :=
  if strStarts uri "gs://" then
    let rest := strDrop uri 5
    let bucket := String.mk (rest.data.takeWhile (fun c => c != '/'))
    let name := strDrop (String.mk (rest.data.dropWhile (fun c => c != '/'))) 1
    if bucket = "" || name = "" then none else some (bucket, name)
  else none

/-- Outcome of the decompression tool run on the staged file (`read`, step at
lines 72-97): non-zero exit when the environment says so or when the data is
not gzip; otherwise the tool strips the `.gz` suffix in place, preserving the
input file when invoked with `--keep`. -/
def unzipOutcome (gz : Gz) (env : Env) (fs : FS) (buffer : String)
    (keep : Bool) : Except String FS :=
  match env.unzipFails with
  | some e => Except.error e
  | none =>
    match readFileFS fs buffer with
    | none => Except.error "No such file or directory"
    | some c =>
      match gz.decomp c with
      | none => Except.error "not in gzip format"
      | some raw =>
        let out := strDropRight buffer 3
        if keep then
          Except.ok (insertFS fs out (Entry.file raw))
        else
          Except.ok (insertFS (eraseFS fs buffer) out (Entry.file raw))

/-- Outcome of the compression tool run on the staged file (`write`, lines
149-168): non-zero exit when the environment says so; otherwise the tool
replaces the file by its compressed form with the `.gz` suffix appended. -/
def zipOutcome (gz : Gz) (env : Env) (fs : FS) (buffer : String) :
    Except String FS :=
  match env.zipFails with
  | some e => Except.error e
  | none =>
    match readFileFS fs buffer with
    | none => Except.error "No such file or directory"
    | some c =>
      Except.ok (insertFS (eraseFS fs buffer) (buffer ++ ".gz")
        (Entry.file (gz.comp c)))

/-- The decompression command built in `read` (lines 75-82): the parallel
tool when on the search path, with `--keep --force` exactly when the archive
is to be preserved. -/
def unzipCmd (env : Env) (buffer : String) (keep : Bool) : List String :=
  let tool := if env.unpigzOnPath then "unpigz" else "gunzip"
  if keep then [tool, "--keep", "--force", buffer] else [tool, buffer]

/-- The compression command built in `write` (lines 152-156): the parallel
tool when on the search path. -/
def zipCmd (env : Env) (buffer : String) : List String :=
  [if env.pigzOnPath then "pigz" else "gzip", buffer]

/-- Final phase of `read` (lines 99-100 plus scratch teardown): open the
staged file and yield it to the caller; on scope exit — normal or from a
caller exception — close the handle and remove the scratch directory. -/
def openAndYield (w : World) (p : String) (callerFails : Option String)
    (tr : List Event) : RunResult Bytes :=
  match readFileFS w.fs p with
  | none =>
      { result := Except.error (Err.failure ("No such file or directory: " ++ p)),
        world := { w with fs := cleanupFS w.fs },
        trace := tr ++ [Event.openRead p, Event.rmTempDir tmpDir] }
  | some content =>
    match callerFails with
    | some e =>
        { result := Except.error (Err.fromCaller e),
          world := { w with fs := cleanupFS w.fs },
          trace := tr ++ [Event.openRead p, Event.yieldStream,
            Event.closeStream, Event.rmTempDir tmpDir] }
    | none =>
        { result := Except.ok content,
          world := { w with fs := cleanupFS w.fs },
          trace := tr ++ [Event.openRead p, Event.yieldStream,
            Event.closeStream, Event.rmTempDir tmpDir] }

/-- Steps of `read` after staging (lines 71-100): decompress in place when the
staged name carries `.gz` (with `--keep --force` exactly when the staging was
a symlink to a local source), then open and yield. -/
def afterStage (gz : Gz) (env : Env) (w : World) (gs_uri buffer : String)
    (keep : Bool) (callerFails : Option String) (tr : List Event) :
    RunResult Bytes :=
  if strEnds buffer ".gz" then
    let cmd := unzipCmd env buffer keep
    match unzipOutcome gz env w.fs buffer keep with
    | Except.error e =>
        { result := Except.error (Err.failure
            ("Failed to extract file downloaded from " ++ gs_uri
              ++ ": stderr: " ++ e)),
          world := { w with fs := cleanupFS w.fs },
          trace := tr ++ [Event.toolCmd cmd, Event.rmTempDir tmpDir] }
    | Except.ok fs1 =>
        openAndYield { w with fs := fs1 } (strDropRight buffer 3) callerFails
          (tr ++ [Event.toolCmd cmd])
  else
    openAndYield w buffer callerFails tr

/-- Stderr produced by `gcloud storage cp` when the remote object is absent. -/
def notFoundStderr : String := "The following URLs matched no objects or files"

/-- The `read` context manager (lines 22-100): create the scratch directory,
stage the source into it (remote: `gcloud storage cp`; local: a symlink to the
absolutised source path, marking the archive to be kept), decompress when the
staged name ends in `.gz`, open the result and yield it, and remove the
scratch directory on every exit path. -/
def read (gz : Gz) (env : Env) (w : World) (gs_uri : String)
    (billing : Option String) (callerFails : Option String) : RunResult Bytes :=
  let buffer := tmpDir ++ (if strEnds gs_uri ".gz" then "/download.gz" else "/download")
  if strStarts gs_uri "gs://" then
    let cmd := gcloudCmd gs_uri buffer billing
    match env.downloadFails with
    | some e =>
        { result := Except.error (Err.failure
            ("Failed to download file from " ++ gs_uri ++ ": stderr: " ++ e)),
          world := { w with fs := cleanupFS w.fs },
          trace := [Event.mkTempDir tmpDir, Event.downloadCmd cmd,
            Event.rmTempDir tmpDir] }
    | none =>
      match lookupRemote w.remote gs_uri with
      | none =>
          { result := Except.error (Err.failure
              ("Failed to download file from " ++ gs_uri ++ ": stderr: "
                ++ notFoundStderr)),
            world := { w with fs := cleanupFS w.fs },
            trace := [Event.mkTempDir tmpDir, Event.downloadCmd cmd,
              Event.rmTempDir tmpDir] }
      | some stored =>
          afterStage gz env { w with fs := insertFS w.fs buffer (Entry.file stored) }
            gs_uri buffer false callerFails
            [Event.mkTempDir tmpDir, Event.downloadCmd cmd]
  else
    afterStage gz env
      { w with fs := insertFS w.fs buffer (Entry.link (abspath env.cwd gs_uri)) }
      gs_uri buffer true callerFails
      [Event.mkTempDir tmpDir,
        Event.symlink (abspath env.cwd gs_uri) buffer]

/-- Delivery phase of `write` (lines 170-177): hand the staged file to
`_write_gs_uri` for a `gs://` destination (which first resolves the URI, then
calls `upload_chunks_concurrently`), else `shutil.move` it to the local
destination; then the scratch directory is removed. -/
def deliver (env : Env) (w : World) (gs_uri buffer : String) (mw : Nat)
    (chunkSize : Option Nat) (billing : Option String) (tr : List Event) :
    RunResult Unit :=
  if strStarts gs_uri "gs://" then
    match parseGsUri gs_uri with
    | none =>
        { result := Except.error (Err.resolveError gs_uri),
          world := { w with fs := cleanupFS w.fs },
          trace := tr ++ [Event.rmTempDir tmpDir] }
    | some _ =>
      match readFileFS w.fs buffer with
      | none =>
          { result := Except.error (Err.failure
              ("No such file or directory: " ++ buffer)),
            world := { w with fs := cleanupFS w.fs },
            trace := tr ++ [Event.uploadCall buffer gs_uri mw chunkSize billing,
              Event.rmTempDir tmpDir] }
      | some content =>
        match env.uploadRaises with
        | some e =>
            { result := Except.error (Err.failure e),
              world := { w with fs := cleanupFS w.fs },
              trace := tr ++ [Event.uploadCall buffer gs_uri mw chunkSize billing,
                Event.rmTempDir tmpDir] }
        | none =>
            { result := Except.ok (),
              world :=
                { w with
                  fs := cleanupFS w.fs,
                  remote := insertRemote w.remote gs_uri content },
              trace := tr ++ [Event.uploadCall buffer gs_uri mw chunkSize billing,
                Event.rmTempDir tmpDir] }
  else
    match readFileFS w.fs buffer with
    | none =>
        { result := Except.error (Err.failure
            ("No such file or directory: " ++ buffer)),
          world := { w with fs := cleanupFS w.fs },
          trace := tr ++ [Event.moveFile buffer gs_uri, Event.rmTempDir tmpDir] }
    | some content =>
        { result := Except.ok (),
          world := { w with
            fs := cleanupFS (insertFS (eraseFS w.fs buffer) gs_uri
              (Entry.file content)) },
          trace := tr ++ [Event.moveFile buffer gs_uri, Event.rmTempDir tmpDir] }

/-- The `write` context manager (lines 103-177): resolve the worker-count
default eagerly, create the scratch directory, open the staged file for
writing and yield it (`callerData` is the bytes the caller writes, or the
exception its body raises), close the handle, compress when the destination
name ends in `.gz`, deliver, and remove the scratch directory on every exit
path. -/
def write (gz : Gz) (env : Env) (w : World) (gs_uri : String)
    (maxWorkers : Option Nat) (chunkSize : Option Nat) (billing : Option String)
    (callerData : Except String Bytes) : RunResult Unit :=
  let mw := match maxWorkers with
    | some n => n
    | none => getAvailableCpus env
  let buffer := tmpDir ++ "/file_to_upload"
  match callerData with
  | Except.error e =>
      { result := Except.error (Err.fromCaller e),
        world := { w with fs := cleanupFS (insertFS w.fs buffer (Entry.file [])) },
        trace := [Event.mkTempDir tmpDir, Event.openWrite buffer,
          Event.yieldStream, Event.closeStream, Event.rmTempDir tmpDir] }
  | Except.ok data =>
    let fs0 := insertFS w.fs buffer (Entry.file data)
    let tr0 := [Event.mkTempDir tmpDir, Event.openWrite buffer,
      Event.yieldStream, Event.closeStream]
    if strEnds gs_uri ".gz" then
      match zipOutcome gz env fs0 buffer with
      | Except.error e =>
          { result := Except.error (Err.failure
              ("Failed to compress file for upload to " ++ gs_uri
                ++ ": stderr: " ++ e)),
            world := { w with fs := cleanupFS fs0 },
            trace := tr0 ++ [Event.toolCmd (zipCmd env buffer),
              Event.rmTempDir tmpDir] }
      | Except.ok fs1 =>
          deliver env { w with fs := fs1 } gs_uri (buffer ++ ".gz") mw chunkSize
            billing (tr0 ++ [Event.toolCmd (zipCmd env buffer)])
    else
      deliver env { w with fs := fs0 } gs_uri buffer mw chunkSize billing tr0

/-- Bytes found at a destination locator after a `write`: the remote object
for a `gs://` URI, the local file otherwise. -/
def fetchDest (w : World) (destUri : String) : Option Bytes :=
  if strStarts destUri "gs://" then lookupRemote w.remote destUri
  else
    match lookupFS w.fs destUri with
    | some (Entry.file c) => some c
    | _ => none

/-- Recogniser for compression-tool invocations in a trace. -/
def isTool : Event → Bool
  | Event.toolCmd _ => true
  | _ => false

/-- Recogniser for `gcloud storage cp` invocations in a trace. -/
def isDownload : Event → Bool
  | Event.downloadCmd _ => true
  | _ => false

/-- Recogniser for transfer-backend upload calls in a trace. -/
def isUpload : Event → Bool
  | Event.uploadCall _ _ _ _ _ => true
  | _ => false

/-- Recogniser for local move deliveries in a trace. -/
def isMove : Event → Bool
  | Event.moveFile _ _ => true
  | _ => false

/-- Recogniser for the caller-visible stream close in a trace. -/
def isClose : Event → Bool
  | Event.closeStream => true
  | _ => false

/-- Recogniser for the yield of the caller-visible stream in a trace. -/
def isYield : Event → Bool
  | Event.yieldStream => true
  | _ => false

/-- Scanner for the ordering discipline: with `seen` recording whether a
`p`-event has already happened, every `q`-event must be preceded by one. -/
def eachPrecededFrom (p q : Event → Bool) : List Event → Bool → Bool
  | [], _ => true
  | e :: rest, seen => (!(q e) || seen) && eachPrecededFrom p q rest (seen || p e)

/-- Every `q`-event of the trace is strictly preceded by some `p`-event. -/
def eachPreceded (p q : Event → Bool) (tr : List Event) : Bool :=
  eachPrecededFrom p q tr false

/-- A concrete environment for evaluating the operations at witnesses. -/
def envC : Env where
  unpigzOnPath := true
  pigzOnPath := true
  cwd := "/home/user"
  schedAffinityOk := true
  affinityCpus := 4
  cpuCount := 8
  downloadFails := none
  unzipFails := none
  zipFails := none
  uploadRaises := none

/-- An empty world for evaluating the operations at witnesses. -/
def w0 : World := { fs := [], remote := [] }

/-- Events that the tail of `read` after staging may contain. -/
def stageTailOk : Event → Bool
  | Event.toolCmd _ => true
  | Event.openRead _ => true
  | Event.yieldStream => true
  | Event.closeStream => true
  | Event.rmTempDir _ => true
  | _ => false

/-- Events that the delivery tail of `write` may contain. -/
def deliverTailOk : Event → Bool
  | Event.uploadCall _ _ _ _ _ => true
  | Event.moveFile _ _ => true
  | Event.rmTempDir _ => true
  | _ => false

/-! ### Basic facts about the filesystem model -/

theorem lookupFS_insert (fs : FS) (p : String) (e : Entry) :
    lookupFS (insertFS fs p e) p = some e := by
  simp [insertFS, lookupFS]

theorem lookupFS_eraseFS_ne (fs : FS) (p q : String) (h : q ≠ p) :
    lookupFS (eraseFS fs p) q = lookupFS fs q := by
  induction fs with
  | nil => rfl
  | cons pe rest ih =>
    rcases pe with ⟨k, e⟩
    by_cases hk : k = p
    · subst hk
      simp only [eraseFS, List.filter_cons] at *
      simp only [bne_self_eq_false, if_neg, Bool.false_eq_true, not_false_iff,
        ite_false]
      have : k ≠ q := fun hkq => h (hkq ▸ rfl)
      simp [lookupFS, this, ih]
    · simp only [eraseFS, List.filter_cons] at *
      have hb : (k != p) = true := bne_iff_ne.mpr hk
      simp [hb, lookupFS, ih]

theorem lookupFS_insert_ne (fs : FS) (p q : String) (e : Entry) (h : q ≠ p) :
    lookupFS (insertFS fs p e) q = lookupFS fs q := by
  have hpq : p ≠ q := fun hEq => h hEq.symm
  simp [insertFS, lookupFS, hpq, lookupFS_eraseFS_ne fs p q h]

theorem lookupFS_cleanup (fs : FS) (q : String)
    (h : strStarts q tmpDir = false) :
    lookupFS (cleanupFS fs) q = lookupFS fs q := by
  induction fs with
  | nil => rfl
  | cons pe rest ih =>
    rcases pe with ⟨k, e⟩
    by_cases hk : strStarts k tmpDir = true
    · have hkq : k ≠ q := by
        intro hEq
        rw [hEq, h] at hk
        exact Bool.noConfusion hk
      simp [cleanupFS, List.filter_cons, hk, lookupFS, hkq] at *
      exact ih
    · have hk' : strStarts k tmpDir = false := Bool.eq_false_iff.mpr hk
      simp only [cleanupFS, List.filter_cons, hk', Bool.not_false, if_pos,
        lookupFS] at *
      by_cases hkq : k = q
      · simp [hkq]
      · simp [hkq, ih]

theorem fsClean_cleanup (fs : FS) : fsClean (cleanupFS fs) = true := by
  induction fs with
  | nil => rfl
  | cons pe rest ih =>
    by_cases hk : strStarts pe.1 tmpDir = true
    · simp only [cleanupFS, List.filter_cons, hk, Bool.not_true, Bool.false_eq_true,
        if_neg, not_false_iff, ite_false]
      exact ih
    · have hk' : strStarts pe.1 tmpDir = false := Bool.eq_false_iff.mpr hk
      simp only [cleanupFS, List.filter_cons, hk', Bool.not_false, if_pos, ite_true,
        fsClean, List.all_cons, Bool.and_eq_true]
      exact ⟨trivial, ih⟩

theorem lookupRemote_insert (r : Remote) (p : String) (c : Bytes) :
    lookupRemote (insertRemote r p c) p = some c := by
  simp [insertRemote, lookupRemote]

theorem readFileFS_insert_file (fs : FS) (p : String) (c : Bytes) :
    readFileFS (insertFS fs p (Entry.file c)) p = some c := by
  simp [readFileFS, lookupFS_insert]

theorem readFileFS_insert_link (fs : FS) (p t : String) (c : Bytes)
    (hne : t ≠ p) (hl : lookupFS fs t = some (Entry.file c)) :
    readFileFS (insertFS fs p (Entry.link t)) p = some c := by
  simp [readFileFS, lookupFS_insert, lookupFS_insert_ne fs p t _ hne, hl]

theorem eachPrecededFrom_true (p q : Event → Bool) (tr : List Event) :
    eachPrecededFrom p q tr true = true := by
  induction tr with
  | nil => rfl
  | cons e rest ih => simp [eachPrecededFrom, ih]

/-! ### Structural facts about the phases of the two operations -/

theorem openAndYield_fs (w : World) (p : String) (cf : Option String)
    (tr : List Event) : (openAndYield w p cf tr).world.fs = cleanupFS w.fs := by
  unfold openAndYield
  split
  · rfl
  · split <;> rfl

theorem openAndYield_remote (w : World) (p : String) (cf : Option String)
    (tr : List Event) : (openAndYield w p cf tr).world.remote = w.remote := by
  unfold openAndYield
  split
  · rfl
  · split <;> rfl

theorem openAndYield_trace (w : World) (p : String) (cf : Option String)
    (tr : List Event) :
    ∃ tl, (openAndYield w p cf tr).trace = tr ++ tl
      ∧ tl.all stageTailOk = true ∧ Event.rmTempDir tmpDir ∈ tl := by
  unfold openAndYield
  split
  · exact ⟨_, rfl, by simp [stageTailOk], by simp⟩
  · split
    · exact ⟨_, rfl, by simp [stageTailOk], by simp⟩
    · exact ⟨_, rfl, by simp [stageTailOk], by simp⟩

theorem afterStage_fsClean (gz : Gz) (env : Env) (w : World)
    (gs_uri buffer : String) (keep : Bool) (cf : Option String)
    (tr : List Event) :
    fsClean (afterStage gz env w gs_uri buffer keep cf tr).world.fs = true := by
  unfold afterStage
  by_cases hE : strEnds buffer ".gz" = true
  · simp only [if_pos hE]
    cases hu : unzipOutcome gz env w.fs buffer keep with
    | error e => simp [hu, fsClean_cleanup]
    | ok fs1 => simp [hu, openAndYield_fs, fsClean_cleanup]
  · simp only [if_neg hE]
    rw [openAndYield_fs]
    exact fsClean_cleanup _

theorem afterStage_remote (gz : Gz) (env : Env) (w : World)
    (gs_uri buffer : String) (keep : Bool) (cf : Option String)
    (tr : List Event) :
    (afterStage gz env w gs_uri buffer keep cf tr).world.remote = w.remote := by
  unfold afterStage
  by_cases hE : strEnds buffer ".gz" = true
  · simp only [if_pos hE]
    cases hu : unzipOutcome gz env w.fs buffer keep with
    | error e => simp [hu]
    | ok fs1 => simp [hu, openAndYield_remote]
  · simp only [if_neg hE]
    rw [openAndYield_remote]

theorem afterStage_trace (gz : Gz) (env : Env) (w : World)
    (gs_uri buffer : String) (keep : Bool) (cf : Option String)
    (tr : List Event) :
    ∃ tl, (afterStage gz env w gs_uri buffer keep cf tr).trace = tr ++ tl
      ∧ tl.all stageTailOk = true ∧ Event.rmTempDir tmpDir ∈ tl := by
  unfold afterStage
  by_cases hE : strEnds buffer ".gz" = true
  · simp only [if_pos hE]
    cases hu : unzipOutcome gz env w.fs buffer keep with
    | error e =>
      exact ⟨[Event.toolCmd (unzipCmd env buffer keep), Event.rmTempDir tmpDir],
        by simp [hu], by simp [stageTailOk], by simp⟩
    | ok fs1 =>
      obtain ⟨tl, htl, hok, hrm⟩ := openAndYield_trace { w with fs := fs1 }
        (strDropRight buffer 3) cf (tr ++ [Event.toolCmd (unzipCmd env buffer keep)])
      refine ⟨Event.toolCmd (unzipCmd env buffer keep) :: tl, ?_, ?_, ?_⟩
      · simp only [hu]
        rw [htl, List.append_assoc]
        rfl
      · simp [stageTailOk, hok]
      · simp [hrm]
  · simp only [if_neg hE]
    exact openAndYield_trace w buffer cf tr

theorem deliver_fsClean (env : Env) (w : World) (gs_uri buffer : String)
    (mw : Nat) (cs : Option Nat) (bl : Option String) (tr : List Event) :
    fsClean (deliver env w gs_uri buffer mw cs bl tr).world.fs = true := by
  unfold deliver
  split
  · split
    · exact fsClean_cleanup _
    · split
      · exact fsClean_cleanup _
      · split
        · exact fsClean_cleanup _
        · exact fsClean_cleanup _
  · split
    · exact fsClean_cleanup _
    · exact fsClean_cleanup _

theorem deliver_trace (env : Env) (w : World) (gs_uri buffer : String)
    (mw : Nat) (cs : Option Nat) (bl : Option String) (tr : List Event) :
    ∃ tl, (deliver env w gs_uri buffer mw cs bl tr).trace = tr ++ tl
      ∧ tl.all deliverTailOk = true ∧ Event.rmTempDir tmpDir ∈ tl := by
  unfold deliver
  split
  · split
    · exact ⟨_, rfl, by simp [deliverTailOk], by simp⟩
    · split
      · exact ⟨_, rfl, by simp [deliverTailOk], by simp⟩
      · split
        · exact ⟨_, rfl, by simp [deliverTailOk], by simp⟩
        · exact ⟨_, rfl, by simp [deliverTailOk], by simp⟩
  · split
    · exact ⟨_, rfl, by simp [deliverTailOk], by simp⟩
    · exact ⟨_, rfl, by simp [deliverTailOk], by simp⟩

theorem read_fsClean (gz : Gz) (env : Env) (w : World) (gs_uri : String)
    (billing : Option String) (cf : Option String) :
    fsClean (read gz env w gs_uri billing cf).world.fs = true := by
  by_cases hS : strStarts gs_uri "gs://" = true
  · cases hd : env.downloadFails with
    | some e => simp [read, hS, hd, fsClean_cleanup]
    | none =>
      cases hr : lookupRemote w.remote gs_uri with
      | none => simp [read, hS, hd, hr, fsClean_cleanup]
      | some stored => simp [read, hS, hd, hr, afterStage_fsClean]
  · simp [read, hS, afterStage_fsClean]

theorem read_rm (gz : Gz) (env : Env) (w : World) (gs_uri : String)
    (billing : Option String) (cf : Option String) :
    Event.rmTempDir tmpDir ∈ (read gz env w gs_uri billing cf).trace := by
  by_cases hS : strStarts gs_uri "gs://" = true
  · cases hd : env.downloadFails with
    | some e => simp [read, hS, hd]
    | none =>
      cases hr : lookupRemote w.remote gs_uri with
      | none => simp [read, hS, hd, hr]
      | some stored =>
        simp only [read, hS, hd, hr, if_pos]
        obtain ⟨tl, htl, _, hrm⟩ := afterStage_trace gz env _ gs_uri _ false cf _
        rw [htl]
        exact List.mem_append.mpr (Or.inr hrm)
  · simp only [read, hS, if_neg, Bool.false_eq_true, not_false_iff, ite_false]
    obtain ⟨tl, htl, _, hrm⟩ := afterStage_trace gz env _ gs_uri _ true cf _
    rw [htl]
    exact List.mem_append.mpr (Or.inr hrm)

theorem write_fsClean (gz : Gz) (env : Env) (w : World) (gs_uri : String)
    (mwo : Option Nat) (cs : Option Nat) (billing : Option String)
    (cd : Except String Bytes) :
    fsClean (write gz env w gs_uri mwo cs billing cd).world.fs = true := by
  cases cd with
  | error e => simp [write, fsClean_cleanup]
  | ok data =>
    by_cases hE : strEnds gs_uri ".gz" = true
    · cases hz : zipOutcome gz env
        (insertFS w.fs (tmpDir ++ "/file_to_upload") (Entry.file data))
        (tmpDir ++ "/file_to_upload") with
      | error e => simp [write, hE, hz, fsClean_cleanup]
      | ok fs1 => simp [write, hE, hz, deliver_fsClean]
    · simp [write, hE, deliver_fsClean]

theorem write_rm (gz : Gz) (env : Env) (w : World) (gs_uri : String)
    (mwo : Option Nat) (cs : Option Nat) (billing : Option String)
    (cd : Except String Bytes) :
    Event.rmTempDir tmpDir ∈ (write gz env w gs_uri mwo cs billing cd).trace := by
  cases cd with
  | error e => simp [write]
  | ok data =>
    by_cases hE : strEnds gs_uri ".gz" = true
    · cases hz : zipOutcome gz env
        (insertFS w.fs (tmpDir ++ "/file_to_upload") (Entry.file data))
        (tmpDir ++ "/file_to_upload") with
      | error e => simp [write, hE, hz]
      | ok fs1 =>
        simp only [write, hE, hz, if_pos]
        obtain ⟨tl, htl, _, hrm⟩ := deliver_trace env _ gs_uri _ _ cs billing _
        rw [htl]
        exact List.mem_append.mpr (Or.inr hrm)
    · simp only [write, hE, if_neg, Bool.false_eq_true, not_false_iff, ite_false]
      obtain ⟨tl, htl, _, hrm⟩ := deliver_trace env _ gs_uri _ _ cs billing _
      rw [htl]
      exact List.mem_append.mpr (Or.inr hrm)

/-! ### Claims -/

/-- C1: for every invocation of `read` or `write` — whatever the outcome:
normal completion, an exception from the caller's use of the stream, a
download failure, a compression-tool failure, or an upload failure — the
scratch directory is recursively removed by the time the call returns: the
final filesystem holds nothing under the scratch directory, and the removal
event is in the trace. -/
theorem C1_scratch_always_removed :
    (∀ (gz : Gz) (env : Env) (w : World) (gs_uri : String)
        (billing cf : Option String),
      fsClean (read gz env w gs_uri billing cf).world.fs = true
        ∧ Event.rmTempDir tmpDir ∈ (read gz env w gs_uri billing cf).trace)
    ∧ (∀ (gz : Gz) (env : Env) (w : World) (gs_uri : String)
        (mwo cs : Option Nat) (billing : Option String)
        (cd : Except String Bytes),
      fsClean (write gz env w gs_uri mwo cs billing cd).world.fs = true
        ∧ Event.rmTempDir tmpDir ∈ (write gz env w gs_uri mwo cs billing cd).trace) := by
  constructor
  · intro gz env w gs_uri billing cf
    exact ⟨read_fsClean gz env w gs_uri billing cf,
      read_rm gz env w gs_uri billing cf⟩
  · intro gz env w gs_uri mwo cs billing cd
    exact ⟨write_fsClean gz env w gs_uri mwo cs billing cd,
      write_rm gz env w gs_uri mwo cs billing cd⟩

set_option maxHeartbeats 2000000 in
/-- C3: in every `write` invocation the caller-visible stream is closed
before the compression step runs and before any upload or move; when the
destination name requests compression, no upload or move happens until the
compression-tool run; and when the compression tool exits non-zero, no upload
or move occurs at all. -/
theorem C3_write_ordering (gz : Gz) (env : Env) (w : World) (gs_uri : String)
    (mwo cs : Option Nat) (billing : Option String) (cd : Except String Bytes) :
    eachPreceded isClose isTool (write gz env w gs_uri mwo cs billing cd).trace = true
      ∧ eachPreceded isClose isUpload (write gz env w gs_uri mwo cs billing cd).trace = true
      ∧ eachPreceded isClose isMove (write gz env w gs_uri mwo cs billing cd).trace = true
      ∧ (strEnds gs_uri ".gz" = true →
          eachPreceded isTool isUpload (write gz env w gs_uri mwo cs billing cd).trace = true
            ∧ eachPreceded isTool isMove (write gz env w gs_uri mwo cs billing cd).trace = true)
      ∧ (∀ e, strEnds gs_uri ".gz" = true → env.zipFails = some e →
          (write gz env w gs_uri mwo cs billing cd).trace.all
            (fun x => !(isUpload x) && !(isMove x)) = true) := by
  cases cd with
  | error e =>
    refine ⟨?_, ?_, ?_, fun _ => ⟨?_, ?_⟩, fun e' _ _ => ?_⟩
    · simp [write, eachPreceded, eachPrecededFrom, isClose, isTool]
    · simp [write, eachPreceded, eachPrecededFrom, isClose, isUpload]
    · simp [write, eachPreceded, eachPrecededFrom, isClose, isMove]
    · simp [write, eachPreceded, eachPrecededFrom, isTool, isUpload]
    · simp [write, eachPreceded, eachPrecededFrom, isTool, isMove]
    · simp [write, isUpload, isMove]
  | ok data =>
    by_cases hE : strEnds gs_uri ".gz" = true
    · cases hz : zipOutcome gz env
        (insertFS w.fs (tmpDir ++ "/file_to_upload") (Entry.file data))
        (tmpDir ++ "/file_to_upload") with
      | error e =>
        refine ⟨?_, ?_, ?_, fun _ => ⟨?_, ?_⟩, fun e' _ _ => ?_⟩
        · simp [write, hE, hz, eachPreceded, eachPrecededFrom, isClose, isTool]
        · simp [write, hE, hz, eachPreceded, eachPrecededFrom, isClose, isUpload]
        · simp [write, hE, hz, eachPreceded, eachPrecededFrom, isClose, isMove]
        · simp [write, hE, hz, eachPreceded, eachPrecededFrom, isTool, isUpload]
        · simp [write, hE, hz, eachPreceded, eachPrecededFrom, isTool, isMove]
        · simp [write, hE, hz, isUpload, isMove]
      | ok fs1 =>
        obtain ⟨tl, htl, _, _⟩ := deliver_trace env { w with fs := fs1 } gs_uri
          (tmpDir ++ "/file_to_upload" ++ ".gz")
          (match mwo with
            | some n => n
            | none => getAvailableCpus env) cs billing
          [Event.mkTempDir tmpDir, Event.openWrite (tmpDir ++ "/file_to_upload"),
            Event.yieldStream, Event.closeStream,
            Event.toolCmd (zipCmd env (tmpDir ++ "/file_to_upload"))]
        have hwt : (write gz env w gs_uri mwo cs billing (Except.ok data)).trace
            = [Event.mkTempDir tmpDir,
                Event.openWrite (tmpDir ++ "/file_to_upload"),
                Event.yieldStream, Event.closeStream,
                Event.toolCmd (zipCmd env (tmpDir ++ "/file_to_upload"))] ++ tl := by
          simp only [write, hE, hz, if_pos]
          rw [← htl]
          rfl
        refine ⟨?_, ?_, ?_, fun _ => ⟨?_, ?_⟩, fun e' _ hzf => ?_⟩
        · simp [hwt, eachPreceded, eachPrecededFrom, isClose, isTool,
            eachPrecededFrom_true]
        · simp [hwt, eachPreceded, eachPrecededFrom, isClose, isUpload,
            eachPrecededFrom_true]
        · simp [hwt, eachPreceded, eachPrecededFrom, isClose, isMove,
            eachPrecededFrom_true]
        · simp [hwt, eachPreceded, eachPrecededFrom, isTool, isUpload,
            eachPrecededFrom_true]
        · simp [hwt, eachPreceded, eachPrecededFrom, isTool, isMove,
            eachPrecededFrom_true]
        · rw [zipOutcome, hzf] at hz
          exact Except.noConfusion hz
    · obtain ⟨tl, htl, hok, _⟩ := deliver_trace env
        { w with fs := insertFS w.fs (tmpDir ++ "/file_to_upload") (Entry.file data) }
        gs_uri (tmpDir ++ "/file_to_upload")
        (match mwo with
          | some n => n
          | none => getAvailableCpus env) cs billing
        [Event.mkTempDir tmpDir, Event.openWrite (tmpDir ++ "/file_to_upload"),
          Event.yieldStream, Event.closeStream]
      have hwt : (write gz env w gs_uri mwo cs billing (Except.ok data)).trace
          = [Event.mkTempDir tmpDir,
              Event.openWrite (tmpDir ++ "/file_to_upload"),
              Event.yieldStream, Event.closeStream] ++ tl := by
        simp only [write, hE, Bool.false_eq_true, if_neg, not_false_iff, ite_false]
        rw [← htl]
      refine ⟨?_, ?_, ?_, fun hgz => absurd hgz hE, fun e' hgz _ => absurd hgz hE⟩
      · simp [hwt, eachPreceded, eachPrecededFrom, isClose, isTool,
          eachPrecededFrom_true]
      · simp [hwt, eachPreceded, eachPrecededFrom, isClose, isUpload,
          eachPrecededFrom_true]
      · simp [hwt, eachPreceded, eachPrecededFrom, isClose, isMove,
          eachPrecededFrom_true]

/-- Witness for C3 at a concrete compressed remote destination. -/
theorem C3_write_ordering_witness :
    eachPreceded isClose isTool
      (write gzC envC w0 "gs://b/f.gz" none none none (Except.ok [1])).trace = true := by
  exact (C3_write_ordering gzC envC w0 "gs://b/f.gz" none none none
    (Except.ok [1])).1

theorem deliver_upload_mem (env : Env) (w : World) (gs_uri buffer : String)
    (mw : Nat) (cs : Option Nat) (bl : Option String) (tr : List Event)
    (pr : String × String) (hS : strStarts gs_uri "gs://" = true)
    (hp : parseGsUri gs_uri = some pr) :
    Event.uploadCall buffer gs_uri mw cs bl
      ∈ (deliver env w gs_uri buffer mw cs bl tr).trace := by
  unfold deliver
  simp only [hS, if_pos, hp]
  cases readFileFS w.fs buffer <;> cases env.uploadRaises <;> simp

/-- C4: for every `write` to a remote (`gs://`) destination, the max-worker
count forwarded to the transfer backend is the caller-supplied value
unmodified when one is given, and otherwise the platform's affinity-aware
available-CPU count, falling back to the total CPU count when the affinity
query is unsupported. -/
theorem C4_worker_count (gz : Gz) (env : Env) (w : World) (destUri : String)
    (mwo cs : Option Nat) (billing : Option String) (data : Bytes)
    (hS : strStarts destUri "gs://" = true)
    (hp : (parseGsUri destUri).isSome = true)
    (hz : strEnds destUri ".gz" = true → env.zipFails = none) :
    ∃ p, Event.uploadCall p destUri
      (match mwo with
        | some n => n
        | none => if env.schedAffinityOk then env.affinityCpus else env.cpuCount)
      cs billing
      ∈ (write gz env w destUri mwo cs billing (Except.ok data)).trace := by
  obtain ⟨pr, hpr⟩ := Option.isSome_iff_exists.mp hp
  by_cases hE : strEnds destUri ".gz" = true
  · have hzf : env.zipFails = none := hz hE
    have hzo : zipOutcome gz env
        (insertFS w.fs (tmpDir ++ "/file_to_upload") (Entry.file data))
        (tmpDir ++ "/file_to_upload")
        = Except.ok (insertFS
            (eraseFS (insertFS w.fs (tmpDir ++ "/file_to_upload")
              (Entry.file data)) (tmpDir ++ "/file_to_upload"))
            (tmpDir ++ "/file_to_upload" ++ ".gz")
            (Entry.file (gz.comp data))) := by
      simp [zipOutcome, hzf, readFileFS_insert_file]
    refine ⟨tmpDir ++ "/file_to_upload" ++ ".gz", ?_⟩
    cases mwo with
    | some n =>
      simp only [write, hE, hzo, if_pos]
      exact deliver_upload_mem env _ destUri _ n cs billing _ pr hS hpr
    | none =>
      simp only [write, hE, hzo, if_pos, getAvailableCpus]
      exact deliver_upload_mem env _ destUri _ _ cs billing _ pr hS hpr
  · refine ⟨tmpDir ++ "/file_to_upload", ?_⟩
    cases mwo with
    | some n =>
      simp only [write, hE, Bool.false_eq_true, if_neg, not_false_iff, ite_false]
      exact deliver_upload_mem env _ destUri _ n cs billing _ pr hS hpr
    | none =>
      simp only [write, hE, Bool.false_eq_true, if_neg, not_false_iff, ite_false,
        getAvailableCpus]
      exact deliver_upload_mem env _ destUri _ _ cs billing _ pr hS hpr

/-- Witness for C4 at a concrete uncompressed remote destination with the
default worker count resolved from the concrete platform. -/
theorem C4_worker_count_witness :
    (strStarts "gs://b/f" "gs://" = true)
      ∧ ((parseGsUri "gs://b/f").isSome = true)
      ∧ (strEnds "gs://b/f" ".gz" = true → envC.zipFails = none)
      ∧ (∃ p, Event.uploadCall p "gs://b/f" 4 none none
          ∈ (write gzC envC w0 "gs://b/f" none none none (Except.ok [1])).trace) := by
  refine ⟨by decide, by decide, fun _ => rfl, ?_⟩
  exact C4_worker_count gzC envC w0 "gs://b/f" none none none [1]
    (by decide) (by decide) (fun _ => rfl)

theorem ne_of_strStarts_tmp {s t : String} (hs : strStarts s tmpDir = false)
    (ht : strStarts t tmpDir = true) : s ≠ t := by
  intro hEq
  rw [hEq, ht] at hs
  exact Bool.noConfusion hs

theorem read_yields (gz : Gz) (env : Env) (w : World) (srcUri : String)
    (billing : Option String) (raw stored : Bytes)
    (hdf : env.downloadFails = none) (huz : env.unzipFails = none)
    (hsrcR : strStarts srcUri "gs://" = true →
      lookupRemote w.remote srcUri = some stored)
    (hsrcL : strStarts srcUri "gs://" = false →
      lookupFS w.fs (abspath env.cwd srcUri) = some (Entry.file stored)
        ∧ strStarts (abspath env.cwd srcUri) tmpDir = false)
    (hstored : stored = if strEnds srcUri ".gz" then gz.comp raw else raw) :
    (read gz env w srcUri billing none).result = Except.ok raw := by
  by_cases hS : strStarts srcUri "gs://" = true
  · have hr := hsrcR hS
    by_cases hE : strEnds srcUri ".gz" = true
    · have hB : strEnds (tmpDir ++ "/download.gz") ".gz" = true := by decide
      have hO : strDropRight (tmpDir ++ "/download.gz") 3 = tmpDir ++ "/download" := by
        decide
      have hdec : gz.decomp stored = some raw := by
        rw [hstored, if_pos hE]
        exact gz.round raw
      have hu : unzipOutcome gz env
          (insertFS w.fs (tmpDir ++ "/download.gz") (Entry.file stored))
          (tmpDir ++ "/download.gz") false
          = Except.ok (insertFS
              (eraseFS (insertFS w.fs (tmpDir ++ "/download.gz")
                (Entry.file stored)) (tmpDir ++ "/download.gz"))
              (tmpDir ++ "/download") (Entry.file raw)) := by
        simp [unzipOutcome, huz, readFileFS_insert_file, hdec, hO]
      simp only [read, hS, hE, hdf, hr, if_pos]
      simp only [afterStage, hB, if_pos, hu, hO]
      simp [openAndYield, readFileFS_insert_file]
    · have hB : strEnds (tmpDir ++ "/download") ".gz" = false := by decide
      have hraw : stored = raw := by rw [hstored, if_neg hE]
      simp only [read, hS, hE, hdf, hr, if_pos, Bool.false_eq_true, if_neg,
        not_false_iff, ite_false]
      simp only [afterStage, hB, Bool.false_eq_true, if_neg, not_false_iff,
        ite_false]
      simp [openAndYield, readFileFS_insert_file, hraw]
  · have hS' : strStarts srcUri "gs://" = false := Bool.eq_false_iff.mpr hS
    obtain ⟨hfs, hpre⟩ := hsrcL hS'
    by_cases hE : strEnds srcUri ".gz" = true
    · have hB : strEnds (tmpDir ++ "/download.gz") ".gz" = true := by decide
      have hO : strDropRight (tmpDir ++ "/download.gz") 3 = tmpDir ++ "/download" := by
        decide
      have hTne : abspath env.cwd srcUri ≠ tmpDir ++ "/download.gz" :=
        ne_of_strStarts_tmp hpre (by decide)
      have hdec : gz.decomp stored = some raw := by
        rw [hstored, if_pos hE]
        exact gz.round raw
      have hread : readFileFS
          (insertFS w.fs (tmpDir ++ "/download.gz")
            (Entry.link (abspath env.cwd srcUri)))
          (tmpDir ++ "/download.gz") = some stored :=
        readFileFS_insert_link _ _ _ _ hTne hfs
      have hu : unzipOutcome gz env
          (insertFS w.fs (tmpDir ++ "/download.gz")
            (Entry.link (abspath env.cwd srcUri)))
          (tmpDir ++ "/download.gz") true
          = Except.ok (insertFS
              (insertFS w.fs (tmpDir ++ "/download.gz")
                (Entry.link (abspath env.cwd srcUri)))
              (tmpDir ++ "/download") (Entry.file raw)) := by
        simp [unzipOutcome, huz, hread, hdec, hO]
      simp only [read, hS, hE, if_pos, Bool.false_eq_true, if_neg,
        not_false_iff, ite_false]
      simp only [afterStage, hB, if_pos, hu, hO]
      simp [openAndYield, readFileFS_insert_file]
    · have hB : strEnds (tmpDir ++ "/download") ".gz" = false := by decide
      have hraw : stored = raw := by rw [hstored, if_neg hE]
      have hTne : abspath env.cwd srcUri ≠ tmpDir ++ "/download" :=
        ne_of_strStarts_tmp hpre (by decide)
      have hread : readFileFS
          (insertFS w.fs (tmpDir ++ "/download")
            (Entry.link (abspath env.cwd srcUri)))
          (tmpDir ++ "/download") = some stored :=
        readFileFS_insert_link _ _ _ _ hTne hfs
      simp only [read, hS, hE, Bool.false_eq_true, if_neg, not_false_iff,
        ite_false]
      simp only [afterStage, hB, Bool.false_eq_true, if_neg, not_false_iff,
        ite_false]
      simp [openAndYield, hread, hraw]

theorem write_delivers (gz : Gz) (env : Env) (w : World) (destUri : String)
    (mwo cs : Option Nat) (billing : Option String) (data : Bytes)
    (hzf : env.zipFails = none) (hup : env.uploadRaises = none)
    (hd1 : strStarts destUri "gs://" = true → (parseGsUri destUri).isSome = true)
    (hd2 : strStarts destUri "gs://" = false → strStarts destUri tmpDir = false) :
    (write gz env w destUri mwo cs billing (Except.ok data)).result = Except.ok ()
      ∧ fetchDest (write gz env w destUri mwo cs billing (Except.ok data)).world
          destUri
        = some (if strEnds destUri ".gz" then gz.comp data else data) := by
  by_cases hE : strEnds destUri ".gz" = true
  · have hzo : zipOutcome gz env
        (insertFS w.fs (tmpDir ++ "/file_to_upload") (Entry.file data))
        (tmpDir ++ "/file_to_upload")
        = Except.ok (insertFS
            (eraseFS (insertFS w.fs (tmpDir ++ "/file_to_upload")
              (Entry.file data)) (tmpDir ++ "/file_to_upload"))
            (tmpDir ++ "/file_to_upload" ++ ".gz")
            (Entry.file (gz.comp data))) := by
      simp [zipOutcome, hzf, readFileFS_insert_file]
    have hrf : readFileFS (insertFS
        (eraseFS (insertFS w.fs (tmpDir ++ "/file_to_upload")
          (Entry.file data)) (tmpDir ++ "/file_to_upload"))
        (tmpDir ++ "/file_to_upload" ++ ".gz")
        (Entry.file (gz.comp data))) (tmpDir ++ "/file_to_upload" ++ ".gz")
        = some (gz.comp data) := readFileFS_insert_file _ _ _
    simp only [write, hE, hzo, if_pos]
    by_cases hS : strStarts destUri "gs://" = true
    · obtain ⟨pr, hpr⟩ := Option.isSome_iff_exists.mp (hd1 hS)
      simp only [deliver, hS, if_pos, hpr, hrf, hup]
      exact ⟨trivial, by simp [fetchDest, hS, lookupRemote_insert, hE]⟩
    · have hS' : strStarts destUri "gs://" = false := Bool.eq_false_iff.mpr hS
      simp only [deliver, hS, Bool.false_eq_true, if_neg, not_false_iff,
        ite_false, hrf]
      refine ⟨trivial, ?_⟩
      simp only [fetchDest, hS, Bool.false_eq_true, if_neg, not_false_iff,
        ite_false]
      rw [lookupFS_cleanup _ _ (hd2 hS'), lookupFS_insert]
  · have hrf : readFileFS
        (insertFS w.fs (tmpDir ++ "/file_to_upload") (Entry.file data))
        (tmpDir ++ "/file_to_upload") = some data := readFileFS_insert_file _ _ _
    simp only [write, hE, Bool.false_eq_true, if_neg, not_false_iff, ite_false]
    by_cases hS : strStarts destUri "gs://" = true
    · obtain ⟨pr, hpr⟩ := Option.isSome_iff_exists.mp (hd1 hS)
      simp only [deliver, hS, if_pos, hpr, hrf, hup]
      exact ⟨trivial, by simp [fetchDest, hS, lookupRemote_insert, hE]⟩
    · have hS' : strStarts destUri "gs://" = false := Bool.eq_false_iff.mpr hS
      simp only [deliver, hS, Bool.false_eq_true, if_neg, not_false_iff,
        ite_false, hrf]
      refine ⟨trivial, ?_⟩
      simp only [fetchDest, hS, Bool.false_eq_true, if_neg, not_false_iff,
        ite_false]
      rw [lookupFS_cleanup _ _ (hd2 hS'), lookupFS_insert]

/-- C2: for every byte content and every choice of compressed/uncompressed
source name and compressed/uncompressed destination name, a `read` of a
source holding that content (compressed on disk exactly when the name carries
`.gz`) yields the uncompressed bytes, and a `write` of exactly those bytes
delivers to the destination a content whose uncompressed bytes equal the
original bit-for-bit — the external gzip tools being modelled as the inverse
pair `Gz`. -/
theorem C2_roundtrip (gz : Gz) (env : Env) (w : World) (srcUri destUri : String)
    (billing billing2 : Option String) (mwo cs : Option Nat) (raw stored : Bytes)
    (hdf : env.downloadFails = none) (huz : env.unzipFails = none)
    (hzf : env.zipFails = none) (hup : env.uploadRaises = none)
    (hsrcR : strStarts srcUri "gs://" = true →
      lookupRemote w.remote srcUri = some stored)
    (hsrcL : strStarts srcUri "gs://" = false →
      lookupFS w.fs (abspath env.cwd srcUri) = some (Entry.file stored)
        ∧ strStarts (abspath env.cwd srcUri) tmpDir = false)
    (hstored : stored = if strEnds srcUri ".gz" then gz.comp raw else raw)
    (hd1 : strStarts destUri "gs://" = true → (parseGsUri destUri).isSome = true)
    (hd2 : strStarts destUri "gs://" = false → strStarts destUri tmpDir = false) :
    (read gz env w srcUri billing none).result = Except.ok raw
      ∧ (write gz env (read gz env w srcUri billing none).world destUri mwo cs
          billing2 (Except.ok raw)).result = Except.ok ()
      ∧ (fetchDest (write gz env (read gz env w srcUri billing none).world
            destUri mwo cs billing2 (Except.ok raw)).world destUri).bind
          (fun d => if strEnds destUri ".gz" then gz.decomp d else some d)
        = some raw := by
  have h1 := read_yields gz env w srcUri billing raw stored hdf huz hsrcR hsrcL
    hstored
  have h2 := write_delivers gz env (read gz env w srcUri billing none).world
    destUri mwo cs billing2 raw hzf hup hd1 hd2
  refine ⟨h1, h2.1, ?_⟩
  rw [h2.2]
  by_cases hE : strEnds destUri ".gz" = true
  · simp [hE, gz.round]
  · simp [hE]

/-- Witness for C2: a compressed remote source round-tripped to an
uncompressed local destination. -/
theorem C2_roundtrip_witness :
    ([0, 1, 2] = if strEnds "gs://b/in.gz" ".gz" then gzC.comp [1, 2] else [1, 2])
      ∧ ((read gzC envC { fs := [], remote := [("gs://b/in.gz", [0, 1, 2])] }
            "gs://b/in.gz" none none).result = Except.ok [1, 2]
        ∧ (write gzC envC (read gzC envC
              { fs := [], remote := [("gs://b/in.gz", [0, 1, 2])] }
              "gs://b/in.gz" none none).world "/data/out" none none none
            (Except.ok [1, 2])).result = Except.ok ()
        ∧ (fetchDest (write gzC envC (read gzC envC
              { fs := [], remote := [("gs://b/in.gz", [0, 1, 2])] }
              "gs://b/in.gz" none none).world "/data/out" none none none
              (Except.ok [1, 2])).world "/data/out").bind
            (fun d => if strEnds "/data/out" ".gz" then gzC.decomp d else some d)
          = some [1, 2]) := by
  refine ⟨by decide, ?_⟩
  exact C2_roundtrip gzC envC
    { fs := [], remote := [("gs://b/in.gz", [0, 1, 2])] }
    "gs://b/in.gz" "/data/out" none none none none [1, 2] [0, 1, 2]
    rfl rfl rfl rfl
    (fun _ => by decide)
    (fun h => absurd h (by decide))
    (by decide)
    (fun h => absurd h (by decide))
    (fun _ => by decide)

theorem unzipOutcome_lookup (gz : Gz) (env : Env) (fs : FS) (buffer : String)
    (keep : Bool) (q : String) (fs1 : FS)
    (hu : unzipOutcome gz env fs buffer keep = Except.ok fs1)
    (hq : strStarts q tmpDir = false)
    (hb : strStarts buffer tmpDir = true)
    (ho : strStarts (strDropRight buffer 3) tmpDir = true) :
    lookupFS fs1 q = lookupFS fs q := by
  unfold unzipOutcome at hu
  cases hz : env.unzipFails with
  | some e => simp [hz] at hu
  | none =>
    cases hr : readFileFS fs buffer with
    | none => simp [hz, hr] at hu
    | some c =>
      cases hd : gz.decomp c with
      | none => simp [hz, hr, hd] at hu
      | some raw =>
        cases keep with
        | true =>
          simp [hz, hr, hd] at hu
          rw [← hu, lookupFS_insert_ne _ _ _ _ (ne_of_strStarts_tmp hq ho)]
        | false =>
          simp [hz, hr, hd] at hu
          rw [← hu, lookupFS_insert_ne _ _ _ _ (ne_of_strStarts_tmp hq ho),
            lookupFS_eraseFS_ne _ _ _ (ne_of_strStarts_tmp hq hb)]

theorem afterStage_lookup (gz : Gz) (env : Env) (w : World)
    (gs_uri buffer : String) (keep : Bool) (cf : Option String)
    (tr : List Event) (q : String)
    (hq : strStarts q tmpDir = false)
    (hb : strStarts buffer tmpDir = true)
    (ho : strStarts (strDropRight buffer 3) tmpDir = true) :
    lookupFS (afterStage gz env w gs_uri buffer keep cf tr).world.fs q
      = lookupFS w.fs q := by
  unfold afterStage
  by_cases hB : strEnds buffer ".gz" = true
  · simp only [if_pos hB]
    cases hu : unzipOutcome gz env w.fs buffer keep with
    | error e => exact lookupFS_cleanup _ _ hq
    | ok fs1 =>
      rw [openAndYield_fs, lookupFS_cleanup _ _ hq]
      exact unzipOutcome_lookup gz env w.fs buffer keep q fs1 hu hq hb ho
  · simp only [hB, Bool.false_eq_true, if_neg, not_false_iff, ite_false]
    rw [openAndYield_fs]
    exact lookupFS_cleanup _ _ hq

theorem afterStage_tool_mem (gz : Gz) (env : Env) (w : World)
    (gs_uri buffer : String) (keep : Bool) (cf : Option String)
    (tr : List Event) (hB : strEnds buffer ".gz" = true) :
    Event.toolCmd (unzipCmd env buffer keep)
      ∈ (afterStage gz env w gs_uri buffer keep cf tr).trace := by
  unfold afterStage
  simp only [if_pos hB]
  cases hu : unzipOutcome gz env w.fs buffer keep with
  | error e => simp
  | ok fs1 =>
    obtain ⟨tl, htl, _, _⟩ := openAndYield_trace { w with fs := fs1 }
      (strDropRight buffer 3) cf (tr ++ [Event.toolCmd (unzipCmd env buffer keep)])
    rw [htl]
    simp

/-- C5: for every `read` of a local source whose name ends in `.gz`, the
decompression tool is invoked in keep-original mode (`--keep --force`), the
staging is a symbolic link to the absolutised source path, and the caller's
compressed file still exists with unchanged bytes after the operation — on
every exit path. -/
theorem C5_local_source_intact (gz : Gz) (env : Env) (w : World)
    (srcUri : String) (billing cf : Option String) (c : Bytes)
    (hS : strStarts srcUri "gs://" = false)
    (hE : strEnds srcUri ".gz" = true)
    (hfs : lookupFS w.fs (abspath env.cwd srcUri) = some (Entry.file c))
    (hpre : strStarts (abspath env.cwd srcUri) tmpDir = false) :
    lookupFS (read gz env w srcUri billing cf).world.fs
        (abspath env.cwd srcUri) = some (Entry.file c)
      ∧ Event.symlink (abspath env.cwd srcUri) (tmpDir ++ "/download.gz")
          ∈ (read gz env w srcUri billing cf).trace
      ∧ Event.toolCmd (unzipCmd env (tmpDir ++ "/download.gz") true)
          ∈ (read gz env w srcUri billing cf).trace
      ∧ unzipCmd env (tmpDir ++ "/download.gz") true
        = [if env.unpigzOnPath then "unpigz" else "gunzip", "--keep", "--force",
            tmpDir ++ "/download.gz"] := by
  have hread : read gz env w srcUri billing cf
      = afterStage gz env
          ⟨insertFS w.fs (tmpDir ++ "/download.gz")
            (Entry.link (abspath env.cwd srcUri)), w.remote⟩
          srcUri (tmpDir ++ "/download.gz") true cf
          [Event.mkTempDir tmpDir,
            Event.symlink (abspath env.cwd srcUri) (tmpDir ++ "/download.gz")] := by
    simp [read, hS, hE]
  refine ⟨?_, ?_, ?_, rfl⟩
  · rw [hread, afterStage_lookup gz env _ srcUri _ true cf _ _ hpre
      (by decide) (by decide)]
    rw [lookupFS_insert_ne _ _ _ _ (ne_of_strStarts_tmp hpre (by decide))]
    exact hfs
  · rw [hread]
    obtain ⟨tl, htl, _, _⟩ := afterStage_trace gz env
      ⟨insertFS w.fs (tmpDir ++ "/download.gz")
        (Entry.link (abspath env.cwd srcUri)), w.remote⟩
      srcUri (tmpDir ++ "/download.gz") true cf
      [Event.mkTempDir tmpDir,
        Event.symlink (abspath env.cwd srcUri) (tmpDir ++ "/download.gz")]
    rw [htl]
    simp
  · rw [hread]
    exact afterStage_tool_mem gz env _ srcUri _ true cf _ (by decide)

/-- Witness for C5 at a concrete relative local compressed source. -/
theorem C5_local_source_intact_witness :
    (strStarts "f.gz" "gs://" = false)
      ∧ (strEnds "f.gz" ".gz" = true)
      ∧ (lookupFS [("/home/user/f.gz", Entry.file [0, 5])]
          (abspath envC.cwd "f.gz") = some (Entry.file [0, 5]))
      ∧ lookupFS (read gzC envC
            { fs := [("/home/user/f.gz", Entry.file [0, 5])], remote := [] }
            "f.gz" none none).world.fs
          (abspath envC.cwd "f.gz") = some (Entry.file [0, 5]) := by
  refine ⟨by decide, by decide, by decide, ?_⟩
  exact (C5_local_source_intact gzC envC
    { fs := [("/home/user/f.gz", Entry.file [0, 5])], remote := [] }
    "f.gz" none none [0, 5] (by decide) (by decide) (by decide) (by decide)).1

/-- C6: for every `read` of a remote source, a non-zero exit of the external
copy-in invocation makes `read` raise a failure whose message is exactly the
text naming the source locator followed by the captured stderr, and no stream
is ever yielded; likewise for a non-zero exit of the decompression tool. -/
theorem C6_read_failure_reporting (gz : Gz) (env : Env) (w : World)
    (gs_uri : String) (billing cf : Option String) (e : String)
    (hS : strStarts gs_uri "gs://" = true) :
    (env.downloadFails = some e →
      (read gz env w gs_uri billing cf).result
          = Except.error (Err.failure
            ("Failed to download file from " ++ gs_uri ++ ": stderr: " ++ e))
        ∧ Event.yieldStream ∉ (read gz env w gs_uri billing cf).trace)
      ∧ (∀ stored, env.downloadFails = none →
          lookupRemote w.remote gs_uri = some stored →
          strEnds gs_uri ".gz" = true →
          env.unzipFails = some e →
          (read gz env w gs_uri billing cf).result
              = Except.error (Err.failure
                ("Failed to extract file downloaded from " ++ gs_uri
                  ++ ": stderr: " ++ e))
            ∧ Event.yieldStream ∉ (read gz env w gs_uri billing cf).trace) := by
  constructor
  · intro hdf
    constructor
    · simp [read, hS, hdf]
    · simp [read, hS, hdf]
  · intro stored hdf hr hE huz
    have hu : unzipOutcome gz env
        (insertFS w.fs (tmpDir ++ "/download.gz") (Entry.file stored))
        (tmpDir ++ "/download.gz") false = Except.error e := by
      simp [unzipOutcome, huz]
    have hB : strEnds (tmpDir ++ "/download.gz") ".gz" = true := by decide
    constructor
    · simp only [read, hS, hdf, hr, hE, if_pos]
      simp [afterStage, hB, hu]
    · simp only [read, hS, hdf, hr, hE, if_pos]
      simp [afterStage, hB, hu]

/-- Witness for C6: a failing download of a concrete remote object. -/
theorem C6_read_failure_reporting_witness :
    (strStarts "gs://b/f.gz" "gs://" = true)
      ∧ ({ envC with downloadFails := some "403" }.downloadFails = some "403")
      ∧ ((read gzC { envC with downloadFails := some "403" } w0 "gs://b/f.gz"
            none none).result
          = Except.error (Err.failure
            ("Failed to download file from " ++ "gs://b/f.gz" ++ ": stderr: "
              ++ "403"))
        ∧ Event.yieldStream ∉ (read gzC { envC with downloadFails := some "403" }
            w0 "gs://b/f.gz" none none).trace) := by
  refine ⟨by decide, rfl, ?_⟩
  exact (C6_read_failure_reporting gzC { envC with downloadFails := some "403" }
    w0 "gs://b/f.gz" none none "403" (by decide)).1 rfl

theorem isTool_false_of_deliverTailOk (x : Event) (h : deliverTailOk x = true) :
    isTool x = false := by
  cases x <;> first
    | rfl
    | simp [deliverTailOk] at h

theorem all_no_tool_of_deliverTailOk (tl : List Event)
    (h : tl.all deliverTailOk = true) :
    tl.all (fun x => ! isTool x) = true := by
  rw [List.all_eq_true] at h ⊢
  intro x hx
  rw [isTool_false_of_deliverTailOk x (h x hx)]
  rfl

theorem openAndYield_no_tool (w : World) (p : String) (cf : Option String)
    (tr : List Event) (htr : tr.all (fun x => ! isTool x) = true) :
    (openAndYield w p cf tr).trace.all (fun x => ! isTool x) = true := by
  unfold openAndYield
  split
  · show (tr ++ [Event.openRead p, Event.rmTempDir tmpDir]).all
      (fun x => ! isTool x) = true
    rw [List.all_append, htr]
    simp [isTool]
  · split
    · show (tr ++ [Event.openRead p, Event.yieldStream, Event.closeStream,
        Event.rmTempDir tmpDir]).all (fun x => ! isTool x) = true
      rw [List.all_append, htr]
      simp [isTool]
    · show (tr ++ [Event.openRead p, Event.yieldStream, Event.closeStream,
        Event.rmTempDir tmpDir]).all (fun x => ! isTool x) = true
      rw [List.all_append, htr]
      simp [isTool]

/-- C7: the compression path is selected purely by the locator's name suffix:
`read` never runs a (de)compression tool when the source name does not end in
`.gz` and always runs one when it does (once staging is reachable), and
`write` never runs one when the destination name does not end in `.gz` and
always runs one when it does — for every staged content, which is never
inspected. -/
theorem C7_suffix_selects_compression :
    (∀ (gz : Gz) (env : Env) (w : World) (srcUri : String)
        (billing cf : Option String),
      strEnds srcUri ".gz" = false →
      (read gz env w srcUri billing cf).trace.all (fun x => ! isTool x) = true)
    ∧ (∀ (gz : Gz) (env : Env) (w : World) (srcUri : String)
        (billing cf : Option String),
      strEnds srcUri ".gz" = true →
      (strStarts srcUri "gs://" = true →
        env.downloadFails = none ∧ (lookupRemote w.remote srcUri).isSome = true) →
      ∃ cmd, Event.toolCmd cmd ∈ (read gz env w srcUri billing cf).trace)
    ∧ (∀ (gz : Gz) (env : Env) (w : World) (destUri : String)
        (mwo cs : Option Nat) (billing : Option String) (cd : Except String Bytes),
      strEnds destUri ".gz" = false →
      (write gz env w destUri mwo cs billing cd).trace.all
        (fun x => ! isTool x) = true)
    ∧ (∀ (gz : Gz) (env : Env) (w : World) (destUri : String)
        (mwo cs : Option Nat) (billing : Option String) (data : Bytes),
      strEnds destUri ".gz" = true →
      ∃ cmd, Event.toolCmd cmd
        ∈ (write gz env w destUri mwo cs billing (Except.ok data)).trace) := by
  refine ⟨?_, ?_, ?_, ?_⟩
  · intro gz env w srcUri billing cf hE
    have hB : strEnds (tmpDir ++ "/download") ".gz" = false := by decide
    by_cases hS : strStarts srcUri "gs://" = true
    · cases hd : env.downloadFails with
      | some e => simp [read, hS, hd, isTool]
      | none =>
        cases hr : lookupRemote w.remote srcUri with
        | none => simp [read, hS, hd, hr, isTool]
        | some stored =>
          simp only [read, hS, hd, hr, hE, if_pos, Bool.false_eq_true, if_neg,
            not_false_iff, ite_false]
          simp only [afterStage, hB, Bool.false_eq_true, if_neg, not_false_iff,
            ite_false]
          exact openAndYield_no_tool _ _ cf _ (by simp [isTool])
    · simp only [read, hS, hE, Bool.false_eq_true, if_neg, not_false_iff,
        ite_false]
      simp only [afterStage, hB, Bool.false_eq_true, if_neg, not_false_iff,
        ite_false]
      exact openAndYield_no_tool _ _ cf _ (by simp [isTool])
  · intro gz env w srcUri billing cf hE hstage
    have hB : strEnds (tmpDir ++ "/download.gz") ".gz" = true := by decide
    by_cases hS : strStarts srcUri "gs://" = true
    · obtain ⟨hdf, hsome⟩ := hstage hS
      obtain ⟨stored, hr⟩ := Option.isSome_iff_exists.mp hsome
      refine ⟨unzipCmd env (tmpDir ++ "/download.gz") false, ?_⟩
      simp only [read, hS, hdf, hr, hE, if_pos]
      exact afterStage_tool_mem gz env _ srcUri _ false cf _ hB
    · refine ⟨unzipCmd env (tmpDir ++ "/download.gz") true, ?_⟩
      simp only [read, hS, hE, if_pos, Bool.false_eq_true, if_neg,
        not_false_iff, ite_false]
      exact afterStage_tool_mem gz env _ srcUri _ true cf _ hB
  · intro gz env w destUri mwo cs billing cd hE
    cases cd with
    | error e => simp [write, isTool]
    | ok data =>
      simp only [write, hE, Bool.false_eq_true, if_neg, not_false_iff, ite_false]
      obtain ⟨tl, htl, hok, _⟩ := deliver_trace env
        ⟨insertFS w.fs (tmpDir ++ "/file_to_upload") (Entry.file data), w.remote⟩
        destUri (tmpDir ++ "/file_to_upload")
        (match mwo with
          | some n => n
          | none => getAvailableCpus env) cs billing
        [Event.mkTempDir tmpDir, Event.openWrite (tmpDir ++ "/file_to_upload"),
          Event.yieldStream, Event.closeStream]
      rw [htl, List.all_append]
      rw [all_no_tool_of_deliverTailOk tl hok]
      simp [isTool]
  · intro gz env w destUri mwo cs billing data hE
    refine ⟨zipCmd env (tmpDir ++ "/file_to_upload"), ?_⟩
    cases hz : zipOutcome gz env
        (insertFS w.fs (tmpDir ++ "/file_to_upload") (Entry.file data))
        (tmpDir ++ "/file_to_upload") with
    | error e => simp [write, hE, hz]
    | ok fs1 =>
      simp only [write, hE, hz, if_pos, List.cons_append, List.nil_append]
      obtain ⟨tl, htl, _, _⟩ := deliver_trace env ⟨fs1, w.remote⟩ destUri
        (tmpDir ++ "/file_to_upload" ++ ".gz")
        (match mwo with
          | some n => n
          | none => getAvailableCpus env) cs billing
        [Event.mkTempDir tmpDir, Event.openWrite (tmpDir ++ "/file_to_upload"),
          Event.yieldStream, Event.closeStream,
          Event.toolCmd (zipCmd env (tmpDir ++ "/file_to_upload"))]
      rw [htl]
      simp

/-- Witness for C7: an uncompressed remote read runs no tool. -/
theorem C7_suffix_selects_compression_witness :
    (strEnds "gs://b/f.json" ".gz" = false)
      ∧ (read gzC envC w0 "gs://b/f.json" none none).trace.all
          (fun x => ! isTool x) = true := by
  refine ⟨by decide, ?_⟩
  exact C7_suffix_selects_compression.1 gzC envC w0 "gs://b/f.json" none none
    (by decide)

theorem no_remote_of_stageTailOk (x : Event) (h : stageTailOk x = true) :
    (!(isDownload x) && !(isUpload x)) = true := by
  cases x <;> first
    | rfl
    | simp [stageTailOk] at h

theorem all_no_remote_of_stageTailOk (tl : List Event)
    (h : tl.all stageTailOk = true) :
    tl.all (fun x => !(isDownload x) && !(isUpload x)) = true := by
  rw [List.all_eq_true] at h ⊢
  intro x hx
  exact no_remote_of_stageTailOk x (h x hx)

theorem deliver_local_trace (env : Env) (w : World) (gs_uri buffer : String)
    (mw : Nat) (cs : Option Nat) (bl : Option String) (tr : List Event)
    (hS : strStarts gs_uri "gs://" = false) :
    (deliver env w gs_uri buffer mw cs bl tr).trace
      = tr ++ [Event.moveFile buffer gs_uri, Event.rmTempDir tmpDir] := by
  unfold deliver
  simp only [hS, Bool.false_eq_true, if_neg, not_false_iff, ite_false]
  cases readFileFS w.fs buffer <;> rfl

/-- C8: for every locator that is not a remote `gs://` URI, no remote
transfer operation is ever invoked: `read` stages through a symbolic link
from the absolutised source path with no download call, and `write` delivers
through a move of the staged file with no upload call. -/
theorem C8_local_fast_path :
    (∀ (gz : Gz) (env : Env) (w : World) (uri : String)
        (billing cf : Option String),
      strStarts uri "gs://" = false →
      (read gz env w uri billing cf).trace.all
          (fun x => !(isDownload x) && !(isUpload x)) = true
        ∧ Event.symlink (abspath env.cwd uri)
            (tmpDir ++ (if strEnds uri ".gz" then "/download.gz" else "/download"))
            ∈ (read gz env w uri billing cf).trace)
    ∧ (∀ (gz : Gz) (env : Env) (w : World) (uri : String)
        (mwo cs : Option Nat) (billing : Option String) (cd : Except String Bytes),
      strStarts uri "gs://" = false →
      (write gz env w uri mwo cs billing cd).trace.all
          (fun x => !(isDownload x) && !(isUpload x)) = true
        ∧ (∀ data, cd = Except.ok data →
            (strEnds uri ".gz" = true → env.zipFails = none) →
            Event.moveFile
              (if strEnds uri ".gz" then tmpDir ++ "/file_to_upload" ++ ".gz"
                else tmpDir ++ "/file_to_upload") uri
              ∈ (write gz env w uri mwo cs billing cd).trace)) := by
  constructor
  · intro gz env w uri billing cf hS
    obtain ⟨tl, htl, hok, _⟩ := afterStage_trace gz env
      ⟨insertFS w.fs
        (tmpDir ++ (if strEnds uri ".gz" then "/download.gz" else "/download"))
        (Entry.link (abspath env.cwd uri)), w.remote⟩
      uri (tmpDir ++ (if strEnds uri ".gz" then "/download.gz" else "/download"))
      true cf
      [Event.mkTempDir tmpDir,
        Event.symlink (abspath env.cwd uri)
          (tmpDir ++ (if strEnds uri ".gz" then "/download.gz" else "/download"))]
    have hread : (read gz env w uri billing cf).trace
        = [Event.mkTempDir tmpDir,
            Event.symlink (abspath env.cwd uri)
              (tmpDir ++ (if strEnds uri ".gz" then "/download.gz" else "/download"))]
          ++ tl := by
      rw [← htl]
      simp only [read, hS, Bool.false_eq_true, if_neg, not_false_iff, ite_false]
    constructor
    · rw [hread, List.all_append, all_no_remote_of_stageTailOk tl hok]
      simp [isDownload, isUpload]
    · rw [hread]
      simp
  · intro gz env w uri mwo cs billing cd hS
    cases cd with
    | error e =>
      refine ⟨by simp [write, isDownload, isUpload], ?_⟩
      intro data hcd
      exact absurd hcd (by simp)
    | ok data =>
      by_cases hE : strEnds uri ".gz" = true
      · cases hz : zipOutcome gz env
            (insertFS w.fs (tmpDir ++ "/file_to_upload") (Entry.file data))
            (tmpDir ++ "/file_to_upload") with
        | error e =>
          refine ⟨by simp [write, hE, hz, isDownload, isUpload], ?_⟩
          intro data' hcd hzf
          rw [zipOutcome, hzf hE] at hz
          simp [readFileFS_insert_file] at hz
        | ok fs1 =>
          have hwt : (write gz env w uri mwo cs billing (Except.ok data)).trace
              = [Event.mkTempDir tmpDir,
                  Event.openWrite (tmpDir ++ "/file_to_upload"),
                  Event.yieldStream, Event.closeStream,
                  Event.toolCmd (zipCmd env (tmpDir ++ "/file_to_upload"))]
                ++ [Event.moveFile (tmpDir ++ "/file_to_upload" ++ ".gz") uri,
                  Event.rmTempDir tmpDir] := by
            simp only [write, hE, hz, if_pos, List.cons_append, List.nil_append]
            rw [deliver_local_trace env ⟨fs1, w.remote⟩ uri _ _ cs billing _ hS]
            rfl
          refine ⟨?_, ?_⟩
          · rw [hwt]
            simp [isDownload, isUpload]
          · intro data' hcd hzf
            rw [hwt, hE]
            simp
      · have hwt : (write gz env w uri mwo cs billing (Except.ok data)).trace
            = [Event.mkTempDir tmpDir,
                Event.openWrite (tmpDir ++ "/file_to_upload"),
                Event.yieldStream, Event.closeStream]
              ++ [Event.moveFile (tmpDir ++ "/file_to_upload") uri,
                Event.rmTempDir tmpDir] := by
          simp only [write, hE, Bool.false_eq_true, if_neg, not_false_iff,
            ite_false]
          rw [deliver_local_trace env
            ⟨insertFS w.fs (tmpDir ++ "/file_to_upload") (Entry.file data),
              w.remote⟩ uri _ _ cs billing _ hS]
        refine ⟨?_, ?_⟩
        · rw [hwt]
          simp [isDownload, isUpload]
        · intro data' hcd hzf
          rw [hwt]
          simp only [hE, Bool.false_eq_true, if_neg, not_false_iff, ite_false]
          simp

/-- Witness for C8: a concrete local write uses a move and no remote call. -/
theorem C8_local_fast_path_witness :
    (strStarts "/data/out" "gs://" = false)
      ∧ (write gzC envC w0 "/data/out" none none none
          (Except.ok [1])).trace.all
          (fun x => !(isDownload x) && !(isUpload x)) = true := by
  refine ⟨by decide, ?_⟩
  exact (C8_local_fast_path.2 gzC envC w0 "/data/out" none none none
    (Except.ok [1]) (by decide)).1

/-- C10: for every `write` whose caller body raises while using the yielded
stream, no compression runs, no upload or move is attempted, the caller's
exception propagates, the remote store is untouched, and every local path
outside the scratch directory is untouched. -/
theorem C10_write_caller_exception (gz : Gz) (env : Env) (w : World)
    (gs_uri : String) (mwo cs : Option Nat) (billing : Option String)
    (e : String) :
    (write gz env w gs_uri mwo cs billing (Except.error e)).result
        = Except.error (Err.fromCaller e)
      ∧ (write gz env w gs_uri mwo cs billing (Except.error e)).trace.all
          (fun x => !(isTool x) && !(isUpload x) && !(isMove x)) = true
      ∧ (write gz env w gs_uri mwo cs billing (Except.error e)).world.remote
          = w.remote
      ∧ ∀ p, strStarts p tmpDir = false →
          lookupFS (write gz env w gs_uri mwo cs billing
            (Except.error e)).world.fs p = lookupFS w.fs p := by
  refine ⟨rfl, by simp [write, isTool, isUpload, isMove], rfl, ?_⟩
  intro p hp
  show lookupFS (cleanupFS (insertFS w.fs (tmpDir ++ "/file_to_upload")
    (Entry.file []))) p = lookupFS w.fs p
  rw [lookupFS_cleanup _ _ hp,
    lookupFS_insert_ne _ _ _ _ (ne_of_strStarts_tmp hp (by decide))]

/-- Witness for C10: a caller exception over an existing local destination
leaves that destination's bytes unchanged. -/
theorem C10_write_caller_exception_witness :
    (strStarts "/data/old" tmpDir = false)
      ∧ lookupFS (write gzC envC
            { fs := [("/data/old", Entry.file [3])], remote := [] }
            "/data/old" none none none (Except.error "boom")).world.fs
          "/data/old"
        = lookupFS [("/data/old", Entry.file [3])] "/data/old" := by
  refine ⟨by decide, ?_⟩
  exact (C10_write_caller_exception gzC envC
    { fs := [("/data/old", Entry.file [3])], remote := [] }
    "/data/old" none none none "boom").2.2.2 "/data/old" (by decide)

/-- C9 counterexample: the claim says a malformed remote URI fails before any
scratch resource is created, but at the concrete malformed URI `gs:///obj`
the `write` fails with the resolution error only after the scratch directory
was created and the staged file opened. -/
theorem C9_resolve_before_scratch_counterexample :
    (write gzC envC w0 "gs:///obj" none none none (Except.ok [1])).result
        = Except.error (Err.resolveError "gs:///obj")
      ∧ Event.mkTempDir tmpDir
          ∈ (write gzC envC w0 "gs:///obj" none none none (Except.ok [1])).trace
      ∧ Event.openWrite (tmpDir ++ "/file_to_upload")
          ∈ (write gzC envC w0 "gs:///obj" none none none (Except.ok [1])).trace := by
  exact ⟨rfl, by decide, by decide⟩

/-- C9 (amended): for every `write` with a remote locator that cannot be
resolved, the operation fails with the resolution error at the delivery step
— after the scratch directory and staged file were created — and the scratch
directory is still removed by the time the call returns. -/
theorem C9_resolve_fails_at_delivery (gz : Gz) (env : Env) (w : World)
    (uri : String) (mwo cs : Option Nat) (billing : Option String)
    (data : Bytes)
    (hS : strStarts uri "gs://" = true)
    (hp : parseGsUri uri = none)
    (hz : strEnds uri ".gz" = true → env.zipFails = none) :
    (write gz env w uri mwo cs billing (Except.ok data)).result
        = Except.error (Err.resolveError uri)
      ∧ Event.mkTempDir tmpDir
          ∈ (write gz env w uri mwo cs billing (Except.ok data)).trace
      ∧ Event.openWrite (tmpDir ++ "/file_to_upload")
          ∈ (write gz env w uri mwo cs billing (Except.ok data)).trace
      ∧ Event.rmTempDir tmpDir
          ∈ (write gz env w uri mwo cs billing (Except.ok data)).trace
      ∧ fsClean (write gz env w uri mwo cs billing
          (Except.ok data)).world.fs = true := by
  by_cases hE : strEnds uri ".gz" = true
  · have hzo : zipOutcome gz env
        (insertFS w.fs (tmpDir ++ "/file_to_upload") (Entry.file data))
        (tmpDir ++ "/file_to_upload")
        = Except.ok (insertFS
            (eraseFS (insertFS w.fs (tmpDir ++ "/file_to_upload")
              (Entry.file data)) (tmpDir ++ "/file_to_upload"))
            (tmpDir ++ "/file_to_upload" ++ ".gz")
            (Entry.file (gz.comp data))) := by
      simp [zipOutcome, hz hE, readFileFS_insert_file]
    refine ⟨?_, ?_, ?_, ?_, ?_⟩ <;>
      · simp only [write, hE, hzo, if_pos]
        simp [deliver, hS, hp, fsClean_cleanup]
  · refine ⟨?_, ?_, ?_, ?_, ?_⟩ <;>
      · simp only [write, hE, Bool.false_eq_true, if_neg, not_false_iff,
          ite_false]
        simp [deliver, hS, hp, fsClean_cleanup]

/-- Witness for the amended C9 at the concrete malformed URI. -/
theorem C9_resolve_fails_at_delivery_witness :
    (strStarts "gs:///obj" "gs://" = true)
      ∧ (parseGsUri "gs:///obj" = none)
      ∧ ((write gzC envC w0 "gs:///obj" none none none (Except.ok [1])).result
            = Except.error (Err.resolveError "gs:///obj")
        ∧ Event.mkTempDir tmpDir
            ∈ (write gzC envC w0 "gs:///obj" none none none (Except.ok [1])).trace
        ∧ Event.openWrite (tmpDir ++ "/file_to_upload")
            ∈ (write gzC envC w0 "gs:///obj" none none none (Except.ok [1])).trace
        ∧ Event.rmTempDir tmpDir
            ∈ (write gzC envC w0 "gs:///obj" none none none (Except.ok [1])).trace
        ∧ fsClean (write gzC envC w0 "gs:///obj" none none none
            (Except.ok [1])).world.fs = true) := by
  refine ⟨by decide, by decide, ?_⟩
  exact C9_resolve_fails_at_delivery gzC envC w0 "gs:///obj" none none none [1]
    (by decide) (by decide) (fun _ => rfl)

end GsFastcopy
